import Mathlib

/-!
Verification of the Austrian Law MCP citation and text normalization engine.

This file contains a shallow embedding of the engine's pure components
(citation parser, citation formatter, provision-candidate builder, FTS query
sanitizer, content cleaner) and of the citation validator orchestrator,
translated from the TypeScript sources.  Strings are modelled as `List Char`
(`Str`); the JavaScript regular expressions are embedded as hand-rolled
matchers that reproduce the engine's observable matching behaviour
(leftmost-first scanning, greedy or lazy quantifiers, the ordered-alternation
backtracking of the specific patterns used).  JavaScript character classes
(`\s`, `\d`, `\w`, `.`, `[a-z]` under the `i` flag) are embedded by explicit
code-point predicates.
-/

namespace AustrianLaw

/-- Strings are modelled as lists of characters. -/
abbrev Str := List Char

/-! ### JavaScript character classes -/

/-- JS `\s` (also the set removed by `String.prototype.trim`): whitespace
code points including NBSP, the Unicode space separators and the BOM. -/
def isJsWs (c : Char) : Bool :=
  let n := c.toNat
  n = 9 || n = 10 || n = 11 || n = 12 || n = 13 || n = 32 || n = 160 || n = 5760 ||
  (8192 ≤ n && n ≤ 8202) || n = 8232 || n = 8233 || n = 8239 || n = 8287 ||
  n = 12288 || n = 65279

/-- JS `\d`: the ASCII digits. -/
def isDigitC (c : Char) : Bool :=
  48 ≤ c.toNat && c.toNat ≤ 57

/-- ASCII letter; this is `[a-z]` under the `i` flag of the citation regexes. -/
def isAsciiLetter (c : Char) : Bool :=
  (97 ≤ c.toNat && c.toNat ≤ 122) || (65 ≤ c.toNat && c.toNat ≤ 90)

/-- JS `\w`: `[A-Za-z0-9_]` (ASCII only; umlauts and ß are not word chars). -/
def isWordC (c : Char) : Bool :=
  isDigitC c || isAsciiLetter c || c.toNat = 95

/-- Line terminators that JS `.` (without the `s` flag) does not match. -/
def isTermC (c : Char) : Bool :=
  let n := c.toNat
  n = 10 || n = 13 || n = 8232 || n = 8233

/-- Whether `.`+ can match the whole of `cs` (no line terminator present). -/
def noTerm (cs : Str) : Bool := cs.all (fun c => !isTermC c)

/-- Simple lower-casing used to embed the `i` flag: ASCII letters plus the
umlauts appearing in the repository's patterns.  Restricted simple case
folding is adequate here because the case-insensitive literals in the source
regexes consist only of ASCII letters and ä/ö/ü. -/
def lowerC (c : Char) : Char :=
  if 65 ≤ c.toNat && c.toNat ≤ 90 then Char.ofNat (c.toNat + 32)
  else if c = 'Ä' then 'ä'
  else if c = 'Ö' then 'ö'
  else if c = 'Ü' then 'ü'
  else c

/-! ### JS string helpers -/

/-- Leading-whitespace strip, the first half of `String.prototype.trim`. -/
def jsTrimLeft (cs : Str) : Str := cs.dropWhile isJsWs

/-- Trailing-whitespace strip, the second half of `String.prototype.trim`. -/
def jsTrimRight (cs : Str) : Str := (cs.reverse.dropWhile isJsWs).reverse

/-- JS `String.prototype.trim`. -/
def jsTrim (cs : Str) : Str := jsTrimRight (jsTrimLeft cs)

/-- Length of the maximal whitespace run at the front (a greedy `\s*`). -/
def wsRunLen (cs : Str) : Nat := (cs.takeWhile isJsWs).length

/-- Case-insensitive literal matching: strip the literal `lit` from the front
of `cs` and return the remainder, or `none` when `cs` does not start with it. -/
def stripCI : Str → Str → Option Str
  | [], cs => some cs
  | _, [] => none
  | l :: ls, c :: cs => if lowerC c = lowerC l then stripCI ls cs else none

/-- Case-sensitive literal matching, as `stripCI` but exact. -/
def stripCS : Str → Str → Option Str
  | [], cs => some cs
  | _, [] => none
  | l :: ls, c :: cs => if c = l then stripCS ls cs else none

/-- Decimal value of a digit string, as `Number.parseInt(s, 10)` computes it
for a string of ASCII digits. -/
def digitsToNat (ds : Str) : Nat :=
  ds.foldl (fun n c => n * 10 + (c.toNat - 48)) 0

/-! ### Data model (src/types): ParsedCitation -/

/-- The `type` enum of `ParsedCitation`. -/
inductive CitKind where
  | statute
  | statutory_instrument
  | unknown
deriving DecidableEq, Repr

/-- ParsedCitation from the engine's data model.  Absent optional fields of
the TypeScript record are `none`. -/
structure ParsedCitation where
  valid : Bool
  type : CitKind
  title : Option Str := none
  year : Option Nat := none
  «section» : Option Str := none
  subsection : Option Str := none
  paragraph : Option Str := none
  error : Option Str := none
deriving DecidableEq, Repr

/-! ### Citation parser (src/citation/parser.ts)

Each of the anchored regular expressions of the parser is embedded as a
matcher over `Str`.  Where a regex is deterministic modulo backtracking (the
character classes of adjacent pieces are disjoint), the matcher is written as
a direct maximal-munch parse; where backtracking is observable (the separator
`\s*,?\s+`, the lazy `(.+?)` groups, the ordered keyword alternations), the
matcher enumerates the alternatives in the engine's preference order. -/

/-- Matcher for the sub-pattern `(?:\(\d+\))*` (greedy star of parenthesised
digit groups): returns the consumed prefix and the remainder.  Fuel-indexed;
`cs.length` steps always suffice since every iteration consumes at least
three characters. -/
def parenDigitGroupsAux : Nat → Str → Str × Str
  | 0, cs => ([], cs)
  | fuel + 1, cs =>
    match cs with
    | '(' :: t =>
      let ds := t.takeWhile isDigitC
      if ds.isEmpty then ([], cs)
      else
        match t.drop ds.length with
        | ')' :: r =>
          let (gs, rest) := parenDigitGroupsAux fuel r
          ('(' :: ds ++ ')' :: gs, rest)
        | _ => ([], cs)
    | _ => ([], cs)

/-- Greedy `(?:\(\d+\))*`. -/
def parenDigitGroups (cs : Str) : Str × Str := parenDigitGroupsAux cs.length cs

/-- Greedy optional `[a-z]?` (under the `i` flag): the consumed prefix and
the remainder. -/
def optLetter (r : Str) : Str × Str :=
  match r with
  | c :: t => if isAsciiLetter c then ([c], t) else ([], r)
  | [] => ([], [])

/-- Greedy optional `(?:\([a-z]\))?`: the consumed prefix and the remainder. -/
def optParenLetter (r : Str) : Str × Str :=
  match r with
  | '(' :: c :: ')' :: t => if isAsciiLetter c then (['(', c, ')'], t) else ([], r)
  | _ => ([], r)

/-- Matcher for the section-token group
`[\d]+[a-z]?(?:\(\d+\))*(?:\([a-z]\))?` (with the `i` flag, so the letter may
be upper case): returns the matched token and the remainder.  Greedy parsing
is faithful here because a shorter parse only ever leaves a character that
the following context of each using regex cannot match. -/
def sectionToken (cs : Str) : Option (Str × Str) :=
  let ds := cs.takeWhile isDigitC
  if ds.isEmpty then none
  else
    let lp := optLetter (cs.drop ds.length)
    let gr := parenDigitGroups lp.2
    let pp := optParenLetter gr.2
    some (ds ++ lp.1 ++ gr.1 ++ pp.1, pp.2)

/-- Matcher for the keyword alternation `(?:§|Paragraph|Paragraf)` (with the
`i` flag).  The three alternatives are mutually exclusive on any input, so
first-match is faithful to the regex's ordered alternation. -/
def citeKeywordStrip (cs : Str) : Option Str :=
  match cs with
  | '§' :: r => some r
  | _ =>
    match stripCI "paragraph".data cs with
    | some r => some r
    | none => stripCI "paragraf".data cs

/-- Backtracking search for `\s*,?\s+` followed by a continuation `k` on the
remainder, in the regex engine's preference order: the comma alternative (at
the end of the maximal whitespace run) with a greedy-descending `\s+`, then
the comma-less splits consuming `j = m, m-1, …, 1` whitespace characters. -/
def tryDropsFrom (k : Str → Option α) (v : Str) : Nat → Option α
  | 0 => none
  | n + 1 =>
    match k (v.drop (n + 1)) with
    | some x => some x
    | none => tryDropsFrom k v n

/-- Separator search for `\s*,?\s+` (see `tryDropsFrom`). -/
def sepSearch (k : Str → Option α) (t : Str) : Option α :=
  let m := wsRunLen t
  let commaTry :=
    match t.drop m with
    | ',' :: v => tryDropsFrom k v (wsRunLen v)
    | _ => none
  match commaTry with
  | some x => some x
  | none => tryDropsFrom k t m

/-- Continuation for a trailing `(.+)$` title group: the remainder must be
non-empty and free of line terminators. -/
def plainTitleK (r : Str) : Option Str :=
  if r.isEmpty then none else if noTerm r then some r else none

/-- Matcher for `SECTION_THEN_TITLE`:
`^(?:§|Paragraph|Paragraf)\s*([\d]+[a-z]?(?:\(\d+\))*(?:\([a-z]\))?)\s*,?\s+(.+)$/i`.
Returns (section group, title group). -/
def sectionThenTitle (cs : Str) : Option (Str × Str) :=
  match citeKeywordStrip cs with
  | none => none
  | some r1 =>
    match sectionToken (r1.dropWhile isJsWs) with
    | none => none
    | some (sec, r3) =>
      match sepSearch plainTitleK r3 with
      | none => none
      | some title => some (sec, title)

/-- Tail matcher inside `TITLE_THEN_SECTION`: `\s+(?:§|Paragraph|Paragraf)\s*
<section>$`. -/
def ttsTail (v : Str) : Option Str :=
  match v with
  | c :: _ =>
    if isJsWs c then
      match citeKeywordStrip (v.dropWhile isJsWs) with
      | none => none
      | some u1 =>
        match sectionToken (u1.dropWhile isJsWs) with
        | some (sec, []) => some sec
        | _ => none
    else none
  | [] => none

/-- Lazy scan of the `(.+?)` title group of `TITLE_THEN_SECTION`: the title
is extended one (non-terminator) character at a time, trying the tail matcher
at each length, shortest first. -/
def ttsGo (acc : Str) : Str → Option (Str × Str)
  | [] =>
    match ttsTail [] with
    | some sec => some (acc, sec)
    | none => none
  | c :: r =>
    match ttsTail (c :: r) with
    | some sec => some (acc, sec)
    | none => if isTermC c then none else ttsGo (acc ++ [c]) r

/-- Matcher for `TITLE_THEN_SECTION`:
`^(.+?)\s+(?:§|Paragraph|Paragraf)\s*([\d]+[a-z]?(?:\(\d+\))*(?:\([a-z]\))?)$/i`.
Returns (title group, section group). -/
def titleThenSection : Str → Option (Str × Str)
  | [] => none
  | c :: rest => if isTermC c then none else ttsGo [c] rest

/-- Matcher for `MACHINE_REF_THEN_TITLE`:
`^para([\d]+[a-z]?)\s*,?\s+(.+)$/i`.  Returns (section group, title group). -/
def machineRefThenTitle (cs : Str) : Option (Str × Str) :=
  match stripCI "para".data cs with
  | none => none
  | some r =>
    let ds := r.takeWhile isDigitC
    if ds.isEmpty then none
    else
      let lp := optLetter (r.drop ds.length)
      match sepSearch plainTitleK lp.2 with
      | some title => some (ds ++ lp.1, title)
      | none => none

/-- Matcher for the optional year tail `(?:\s+(\d{4}))?$` attempted by the
greedy optional group: at least one whitespace, then exactly four digits to
the end of the string. -/
def yearTail (v : Str) : Option Str :=
  let n := wsRunLen v
  if n = 0 then none
  else
    let d := v.drop n
    if d.length = 4 && d.all isDigitC then some d else none

/-- Lazy scan of the `(.+?)(?:\s+(\d{4}))?$` tail of `LEGACY_ENGLISH`: the
title is extended shortest-first; at each length the year variant is
preferred over the empty variant, as the optional group is greedy. -/
def tyGo (acc : Str) : Str → Option (Str × Option Str)
  | [] => none
  | c :: rest =>
    if isTermC c then none
    else
      let acc' := acc ++ [c]
      match yearTail rest with
      | some y => some (acc', some y)
      | none => if rest.isEmpty then some (acc', none) else tyGo acc' rest

/-- Continuation for the title/year tail of `LEGACY_ENGLISH`. -/
def titleYearK (r : Str) : Option (Str × Option Str) := tyGo [] r

/-- Continuation of `LEGACY_ENGLISH` after its keyword:
`\s+<section>\s*,?\s+(.+?)(?:\s+(\d{4}))?$`. -/
def legacyAfterKw (u : Str) : Option (Str × Str × Option Str) :=
  match u with
  | c :: _ =>
    if isJsWs c then
      match sectionToken (u.dropWhile isJsWs) with
      | none => none
      | some (sec, r) =>
        match sepSearch titleYearK r with
        | some (title, y) => some (sec, title, y)
        | none => none
    else none
  | [] => none

/-- Matcher for `LEGACY_ENGLISH`:
`^(?:Section|s\.?)\s+([\d]+[a-z]?(?:\(\d+\))*(?:\([a-z]\))?)\s*,?\s+(.+?)(?:\s+(\d{4}))?$/i`.
The keyword alternatives are tried in order (`Section`, then `s.`, then `s`),
each with the full continuation, mirroring the regex's backtracking. -/
def legacyEnglish (cs : Str) : Option (Str × Str × Option Str) :=
  match (match stripCI "section".data cs with
         | some r => legacyAfterKw r
         | none => none) with
  | some x => some x
  | none =>
    match cs with
    | c :: t =>
      if lowerC c = 's' then
        match (match t with
               | '.' :: t2 => legacyAfterKw t2
               | _ => none) with
        | some x => some x
        | none => legacyAfterKw t
      else none
    | [] => none

/-- Matcher for the bare machine form `^para[\d]+[a-z]?$/i`; returns the part
after the 4-character `para` prefix (the `trimmed.slice(4)` of the source). -/
def bareParaSec (cs : Str) : Option Str :=
  match stripCI "para".data cs with
  | none => none
  | some r =>
    let ds := r.takeWhile isDigitC
    if ds.isEmpty then none
    else
      match r.drop ds.length with
      | [] => some r
      | [c] => if isAsciiLetter c then some r else none
      | _ => none

/-- Matcher for the bare symbolic form
`^(?:§|Paragraph|Paragraf)\s*([\d]+[a-z]?(?:\(\d+\))*(?:\([a-z]\))?)$/i`. -/
def bareSymbolic (cs : Str) : Option Str :=
  match citeKeywordStrip cs with
  | none => none
  | some r1 =>
    match sectionToken (r1.dropWhile isJsWs) with
    | some (sec, []) => some sec
    | _ => none

/-- Greedy optional `(?:\((\d+)\))?` of `SECTION_REF` (capturing the
subsection): group value and remainder. -/
def secSub (r : Str) : Option Str × Str :=
  match r with
  | '(' :: t =>
    let d2 := t.takeWhile isDigitC
    if d2.isEmpty then (none, r)
    else
      match t.drop d2.length with
      | ')' :: rest => (some d2, rest)
      | _ => (none, r)
  | _ => (none, r)

/-- Greedy optional `(?:\(([a-z])\))?` of `SECTION_REF` (capturing the
paragraph): group value and remainder. -/
def secPar (r : Str) : Option Str × Str :=
  match r with
  | '(' :: c :: ')' :: t => if isAsciiLetter c then (some [c], t) else (none, r)
  | _ => (none, r)

/-- Matcher for `SECTION_REF`:
`^(\d+[a-z]?)(?:\((\d+)\))?(?:\(([a-z])\))?$/i`.  Returns (group1,
subsection group, paragraph group) on a full match. -/
def secRefMatch (cs : Str) : Option (Str × Option Str × Option Str) :=
  let ds := cs.takeWhile isDigitC
  if ds.isEmpty then none
  else
    let lp := optLetter (cs.drop ds.length)
    let sub := secSub lp.2
    let par := secPar sub.2
    if par.2.isEmpty then some (ds ++ lp.1, sub.1, par.1) else none

/-- Embedding of `splitYear`: the leftmost match of `/\s+(\d{4})$/` exists
exactly when the trimmed title ends in whitespace followed by four digits;
`match[0]` is then the whole trailing whitespace run plus those digits. -/
def splitYear (title : Str) : Str × Option Nat :=
  let t := jsTrim title
  let rev := t.reverse
  let d4 := rev.take 4
  let r := rev.drop 4
  if d4.length = 4 && d4.all isDigitC &&
      (match r with | c :: _ => isJsWs c | [] => false) then
    (jsTrim ((r.dropWhile isJsWs).reverse), some (digitsToNat d4.reverse))
  else (t, none)

/-- The single case-insensitive `^para` prefix removal of
`sectionStr.replace(/^para/i, '')`. -/
def stripParaOnce (cs : Str) : Str :=
  match stripCI "para".data cs with
  | some r => r
  | none => cs

/-- Embedding of the private `parseSection` constructor of the parser. -/
def parseSection (sectionStr : Str) (title : Option Str) (year : Option Nat)
    (type : CitKind) : ParsedCitation :=
  let normalized := jsTrim (stripParaOnce sectionStr)
  match secRefMatch normalized with
  | some (g1, g2, g3) =>
    { valid := true, type := type, title := title.map jsTrim, year := year,
      «section» := some g1, subsection := g2, paragraph := g3 }
  | none =>
    { valid := true, type := type, title := title.map jsTrim, year := year,
      «section» := some normalized, subsection := none, paragraph := none }

/-- Embedding of `parseCitation`: the ordered grammar forms of the parser,
first match wins. -/
def parseCitation (citation : Str) : ParsedCitation :=
  let trimmed := jsTrim citation
  if trimmed.isEmpty then
    { valid := false, type := .unknown, error := some "Empty citation".data }
  else
    match sectionThenTitle trimmed with
    | some (sec, t2) =>
      parseSection sec (some (splitYear t2).1) (splitYear t2).2 .statute
    | none =>
    match titleThenSection trimmed with
    | some (t1, sec) =>
      parseSection sec (some (splitYear t1).1) (splitYear t1).2 .statute
    | none =>
    match machineRefThenTitle trimmed with
    | some (sec, t2) =>
      parseSection sec (some (splitYear t2).1) (splitYear t2).2 .statute
    | none =>
    match legacyEnglish trimmed with
    | some (sec, title, y) =>
      parseSection sec (some title) (y.map digitsToNat) .statute
    | none =>
    match bareParaSec trimmed with
    | some s => parseSection s none none .statute
    | none =>
    match bareSymbolic trimmed with
    | some sec => parseSection sec none none .statute
    | none =>
      { valid := false, type := .unknown,
        error := some ("Could not parse Austrian citation: \"".data ++ trimmed ++ ['"']) }

/-! ### Citation formatter (src/citation/formatter.ts) -/

/-- The `CitationFormat` style enum. -/
inductive CitationFormat where
  | full
  | short
  | pinpoint
deriving DecidableEq, Repr

/-- Embedding of the private `buildPinpoint` of the formatter; a present but
empty `subsection`/`paragraph` is falsy in the source and hence skipped. -/
def buildPinpoint (parsed : ParsedCitation) : Str :=
  let ref := parsed.«section».getD []
  let ref :=
    match parsed.subsection with
    | some s => if s.isEmpty then ref else ref ++ '(' :: s ++ [')']
    | none => ref
  match parsed.paragraph with
  | some s => if s.isEmpty then ref else ref ++ '(' :: s ++ [')']
  | none => ref

/-- Decimal rendering of a year, as JS `String(year)` for a natural value. -/
def natToStr (n : Nat) : Str := (toString n).data

/-- Embedding of `formatCitation`.  The falsy guard `!parsed.valid ||
!parsed.section` covers an absent and an empty section; `year` equal to `0`
and an empty `title` are falsy and therefore omitted from `titleAndYear`. -/
def formatCitation (parsed : ParsedCitation) (format : CitationFormat) : Str :=
  let sectionOk :=
    match parsed.«section» with
    | some s => !s.isEmpty
    | none => false
  if !parsed.valid || !sectionOk then []
  else
    let pin := buildPinpoint parsed
    let titleParts :=
      (match parsed.title with
       | some t => if t.isEmpty then [] else [t]
       | none => []) ++
      (match parsed.year with
       | some y => if y = 0 then [] else [natToStr y]
       | none => [])
    let titleAndYear := List.intercalate " ".data titleParts
    match format with
    | .full =>
      if titleAndYear.isEmpty then "§ ".data ++ pin
      else "§ ".data ++ pin ++ ", ".data ++ titleAndYear
    | .short =>
      match parsed.title with
      | some t => if t.isEmpty then "§ ".data ++ pin else "§ ".data ++ pin ++ ' ' :: t
      | none => "§ ".data ++ pin
    | .pinpoint => "§ ".data ++ pin

/-- Substring test (used to state that an error message contains a word). -/
def containsSub (w : Str) : Str → Bool
  | [] => (w.isEmpty : Bool)
  | c :: rest => ((stripCS w (c :: rest)).isSome : Bool) || containsSub w rest

/-! ### Lemmas about the parser -/

/-- A string whose first character is an ASCII digit. -/
def digitHeaded : Str → Prop
  | c :: _ => isDigitC c = true
  | [] => False

theorem takeWhile_nonempty_head {p : Char → Bool} {cs : Str}
    (h : ¬(cs.takeWhile p).isEmpty) :
    ∃ c t, cs = c :: t ∧ p c = true := by
  cases cs with
  | nil => simp [List.takeWhile] at h
  | cons c t =>
    refine ⟨c, t, rfl, ?_⟩
    by_contra hpc
    simp [List.takeWhile_cons, Bool.not_eq_true] at hpc
    simp [List.takeWhile_cons, hpc] at h

theorem digit_not_ws {c : Char} (h : isDigitC c = true) : isJsWs c = false := by
  simp only [isDigitC, Bool.and_eq_true, decide_eq_true_eq] at h
  rw [Bool.eq_false_iff]
  intro hw
  simp only [isJsWs, Bool.or_eq_true, decide_eq_true_eq, Bool.and_eq_true] at hw
  omega

theorem lowerC_digit {c : Char} (h : isDigitC c = true) : lowerC c = c := by
  unfold lowerC
  split
  · rename_i hc
    simp only [Bool.and_eq_true, decide_eq_true_eq] at hc
    simp only [isDigitC, Bool.and_eq_true, decide_eq_true_eq] at h
    omega
  · split
    · rename_i hc; subst hc; exact absurd h (by decide)
    · split
      · rename_i hc; subst hc; exact absurd h (by decide)
      · split
        · rename_i hc; subst hc; exact absurd h (by decide)
        · rfl

theorem dropWhile_append_last {p : Char → Bool} {x : Char} (hx : p x = false) :
    ∀ l : Str, (l ++ [x]).dropWhile p = l.dropWhile p ++ [x] := by
  intro l
  induction l with
  | nil => simp [List.dropWhile, hx]
  | cons c t ih =>
    by_cases hc : p c = true
    · simp [List.dropWhile_cons, hc, ih]
    · simp only [Bool.not_eq_true] at hc
      simp [List.dropWhile_cons, hc]

theorem jsTrim_digitHeaded {c : Char} (t : Str) (h : isDigitC c = true) :
    ∃ z, jsTrim (c :: t) = c :: z := by
  have hws := digit_not_ws h
  have h1 : jsTrimLeft (c :: t) = c :: t := by
    simp [jsTrimLeft, List.dropWhile_cons, hws]
  refine ⟨(t.reverse.dropWhile isJsWs).reverse, ?_⟩
  simp only [jsTrim, h1, jsTrimRight, List.reverse_cons]
  rw [dropWhile_append_last hws]
  simp

theorem stripCI_para_digitHeaded {a : Str} (h : digitHeaded a) :
    stripCI "para".data a = none := by
  cases a with
  | nil => exact absurd h not_false
  | cons c t =>
    have hd : isDigitC c = true := h
    have hlc : lowerC c = c := lowerC_digit hd
    show stripCI ('p' :: "ara".data) (c :: t) = none
    simp only [stripCI, hlc]
    rw [if_neg]
    intro he
    have hcp : c = 'p' := by rw [show lowerC 'p' = 'p' from by decide] at he; exact he
    rw [hcp] at hd
    exact absurd hd (by decide)

theorem stripParaOnce_digitHeaded {a : Str} (h : digitHeaded a) :
    stripParaOnce a = a := by
  simp [stripParaOnce, stripCI_para_digitHeaded h]

theorem secRefMatch_g1_nonempty {n g1 : Str} {g2 g3 : Option Str}
    (h : secRefMatch n = some (g1, g2, g3)) : g1 ≠ [] := by
  simp only [secRefMatch] at h
  by_cases hds : (n.takeWhile isDigitC).isEmpty
  · simp [hds] at h
  · obtain ⟨c, t, hct, hc⟩ := takeWhile_nonempty_head hds
    simp only [hds, Bool.false_eq_true, if_false] at h
    split at h
    · simp only [Option.some.injEq, Prod.mk.injEq] at h
      obtain ⟨hg1, -⟩ := h
      intro hnil
      rw [hnil] at hg1
      rcases List.append_eq_nil.mp hg1 with ⟨h1, -⟩
      rw [h1] at hds
      simp at hds
    · exact absurd h (by simp)

theorem parseSection_valid_type (a : Str) (t : Option Str) (y : Option Nat)
    (k : CitKind) :
    (parseSection a t y k).valid = true ∧ (parseSection a t y k).type = k := by
  simp only [parseSection]
  split <;> simp

theorem parseSection_section_nonempty (a : Str) (t : Option Str)
    (y : Option Nat) (k : CitKind) (h : digitHeaded a) :
    ∃ s, (parseSection a t y k).«section» = some s ∧ s ≠ [] := by
  obtain ⟨c, t', hct, hc⟩ : ∃ c t', a = c :: t' ∧ isDigitC c = true := by
    cases a with
    | nil => exact absurd h not_false
    | cons c t' => exact ⟨c, t', rfl, h⟩
  have hstrip : stripParaOnce a = a := stripParaOnce_digitHeaded h
  obtain ⟨z, hz⟩ := jsTrim_digitHeaded (c := c) t' hc
  rw [hct] at hstrip ⊢
  simp only [parseSection, hstrip, hz]
  cases hm : secRefMatch (c :: z) with
  | some g =>
    obtain ⟨g1, g2, g3⟩ := g
    simp only [hm]
    exact ⟨g1, by simp, secRefMatch_g1_nonempty hm⟩
  | none =>
    simp only [hm]
    exact ⟨c :: z, by simp, by simp⟩

theorem takeWhile_digit_digitHeaded {cs : Str}
    (h : ¬(cs.takeWhile isDigitC).isEmpty) : digitHeaded cs := by
  obtain ⟨c, t, hct, hc⟩ := takeWhile_nonempty_head h
  rw [hct]
  exact hc

theorem sectionToken_digitHeaded {cs sec r : Str}
    (h : sectionToken cs = some (sec, r)) : digitHeaded sec := by
  simp only [sectionToken] at h
  by_cases hds : (cs.takeWhile isDigitC).isEmpty
  · simp [hds] at h
  · simp only [hds, Bool.false_eq_true, if_false, Option.some.injEq,
      Prod.mk.injEq] at h
    obtain ⟨hsec, -⟩ := h
    obtain ⟨c, t, hct, hc⟩ := takeWhile_nonempty_head hds
    rw [← hsec, hct, List.takeWhile_cons_of_pos hc]
    simpa [digitHeaded] using hc

theorem sectionThenTitle_digitHeaded {cs sec t : Str}
    (h : sectionThenTitle cs = some (sec, t)) : digitHeaded sec := by
  unfold sectionThenTitle at h
  split at h
  · exact absurd h (by simp)
  · split at h
    · exact absurd h (by simp)
    · rename_i r1 hk sec' r3 hst
      split at h
      · exact absurd h (by simp)
      · simp only [Option.some.injEq, Prod.mk.injEq] at h
        obtain ⟨h1, -⟩ := h
        rw [← h1]
        exact sectionToken_digitHeaded hst

theorem ttsTail_digitHeaded {v sec : Str} (h : ttsTail v = some sec) :
    digitHeaded sec := by
  unfold ttsTail at h
  split at h
  · split at h
    · split at h
      · exact absurd h (by simp)
      · split at h
        · rename_i u1 hk p hst
          simp only [Option.some.injEq] at h
          rw [← h]
          exact sectionToken_digitHeaded hst
        · exact absurd h (by simp)
    · exact absurd h (by simp)
  · exact absurd h (by simp)

theorem ttsGo_nil (acc : Str) :
    ttsGo acc [] =
      (match ttsTail [] with
       | some sec => some (acc, sec)
       | none => none) := rfl

theorem ttsGo_cons (acc : Str) (c : Char) (r : Str) :
    ttsGo acc (c :: r) =
      (match ttsTail (c :: r) with
       | some sec => some (acc, sec)
       | none => if isTermC c then none else ttsGo (acc ++ [c]) r) := rfl

theorem ttsGo_digitHeaded :
    ∀ (rest acc t sec : Str), ttsGo acc rest = some (t, sec) → digitHeaded sec := by
  intro rest
  induction rest with
  | nil =>
    intro acc t sec h
    rw [ttsGo_nil] at h
    split at h
    · rename_i s hs
      simp only [Option.some.injEq, Prod.mk.injEq] at h
      obtain ⟨-, h2⟩ := h
      rw [← h2]
      exact ttsTail_digitHeaded hs
    · exact absurd h (by simp)
  | cons c r ih =>
    intro acc t sec h
    rw [ttsGo_cons] at h
    split at h
    · rename_i s hs
      simp only [Option.some.injEq, Prod.mk.injEq] at h
      obtain ⟨-, h2⟩ := h
      rw [← h2]
      exact ttsTail_digitHeaded hs
    · split at h
      · exact absurd h (by simp)
      · exact ih _ _ _ h

theorem titleThenSection_digitHeaded {cs t sec : Str}
    (h : titleThenSection cs = some (t, sec)) : digitHeaded sec := by
  unfold titleThenSection at h
  split at h
  · exact absurd h (by simp)
  · split at h
    · exact absurd h (by simp)
    · exact ttsGo_digitHeaded _ _ _ _ h

theorem machineRefThenTitle_digitHeaded {cs sec t : Str}
    (h : machineRefThenTitle cs = some (sec, t)) : digitHeaded sec := by
  unfold machineRefThenTitle at h
  split at h
  · exact absurd h (by simp)
  · rename_i r hr
    by_cases hds : (r.takeWhile isDigitC).isEmpty
    · simp [hds] at h
    · simp only [hds, Bool.false_eq_true, if_false] at h
      split at h
      · simp only [Option.some.injEq, Prod.mk.injEq] at h
        obtain ⟨h1, -⟩ := h
        obtain ⟨c, t', hct, hc⟩ := takeWhile_nonempty_head hds
        rw [← h1, hct, List.takeWhile_cons_of_pos hc]
        simpa [digitHeaded] using hc
      · exact absurd h (by simp)

theorem legacyAfterKw_digitHeaded {u sec t : Str} {y : Option Str}
    (h : legacyAfterKw u = some (sec, t, y)) : digitHeaded sec := by
  unfold legacyAfterKw at h
  split at h
  · split at h
    · split at h
      · exact absurd h (by simp)
      · rename_i sec' r hst
        split at h
        · simp only [Option.some.injEq, Prod.mk.injEq] at h
          obtain ⟨h1, -⟩ := h
          rw [← h1]
          exact sectionToken_digitHeaded hst
        · exact absurd h (by simp)
    · exact absurd h (by simp)
  · exact absurd h (by simp)

theorem legacyEnglish_digitHeaded {cs sec t : Str} {y : Option Str}
    (h : legacyEnglish cs = some (sec, t, y)) : digitHeaded sec := by
  unfold legacyEnglish at h
  split at h
  · rename_i x hx
    split at hx
    · simp only [Option.some.injEq] at h
      rw [h] at hx
      exact legacyAfterKw_digitHeaded hx
    · exact absurd hx (by simp)
  · rename_i hne
    split at h
    · split at h
      · split at h
        · rename_i x hx
          split at hx
          · simp only [Option.some.injEq] at h
            rw [h] at hx
            exact legacyAfterKw_digitHeaded hx
          · exact absurd hx (by simp)
        · exact legacyAfterKw_digitHeaded h
      · exact absurd h (by simp)
    · exact absurd h (by simp)

theorem bareParaSec_digitHeaded {cs r : Str} (h : bareParaSec cs = some r) :
    digitHeaded r := by
  unfold bareParaSec at h
  split at h
  · exact absurd h (by simp)
  · rename_i r' hr
    by_cases hds : (r'.takeWhile isDigitC).isEmpty
    · simp [hds] at h
    · simp only [hds, Bool.false_eq_true, if_false] at h
      have hd : digitHeaded r' := takeWhile_digit_digitHeaded hds
      split at h
      · simp only [Option.some.injEq] at h; rw [← h]; exact hd
      · split at h
        · simp only [Option.some.injEq] at h; rw [← h]; exact hd
        · exact absurd h (by simp)
      · exact absurd h (by simp)

theorem bareSymbolic_digitHeaded {cs sec : Str} (h : bareSymbolic cs = some sec) :
    digitHeaded sec := by
  unfold bareSymbolic at h
  split at h
  · exact absurd h (by simp)
  · split at h
    · rename_i r1 hk sec' hst
      simp only [Option.some.injEq] at h
      rw [← h]
      exact sectionToken_digitHeaded hst
    · exact absurd h (by simp)

/-- Bundled claim-1 facts for a successful `parseSection` result. -/
theorem parseSection_claim1 (a : Str) (t : Option Str) (y : Option Nat)
    (k : CitKind) (h : digitHeaded a) :
    ((parseSection a t y k).valid = true →
      ∃ s, (parseSection a t y k).«section» = some s ∧ s ≠ []) ∧
    ((parseSection a t y k).valid = false →
      (parseSection a t y k).error.isSome = true ∧
      (parseSection a t y k).title = none ∧ (parseSection a t y k).year = none ∧
      (parseSection a t y k).«section» = none ∧
      (parseSection a t y k).subsection = none ∧
      (parseSection a t y k).paragraph = none) := by
  constructor
  · intro _
    exact parseSection_section_nonempty a t y k h
  · intro hv
    rw [(parseSection_valid_type a t y k).1] at hv
    simp at hv

/-- Bundled claim-10 facts for a successful `parseSection` result. -/
theorem parseSection_claim10 (a : Str) (t : Option Str) (y : Option Nat) :
    ((parseSection a t y .statute).valid = true →
      (parseSection a t y .statute).type = CitKind.statute) ∧
    ((parseSection a t y .statute).valid = false →
      (parseSection a t y .statute).type = CitKind.unknown) ∧
    (parseSection a t y .statute).type ≠ CitKind.statutory_instrument := by
  obtain ⟨hv, ht⟩ := parseSection_valid_type a t y .statute
  refine ⟨fun _ => ht, fun hf => ?_, ?_⟩
  · rw [hv] at hf; simp at hf
  · rw [ht]; simp

/-- C1: `parseCitation` is total (it is a Lean function, so it returns a
value on every input and cannot raise) and establishes the ParsedCitation
invariant: `valid = true` implies `section` is present and non-empty, and
`valid = false` implies `error` is present while `title`, `year`, `section`,
`subsection` and `paragraph` are all absent. -/
theorem claim1_parseCitation_invariant (s : Str) :
    ((parseCitation s).valid = true →
      ∃ t, (parseCitation s).«section» = some t ∧ t ≠ []) ∧
    ((parseCitation s).valid = false →
      (parseCitation s).error.isSome = true ∧ (parseCitation s).title = none ∧
      (parseCitation s).year = none ∧ (parseCitation s).«section» = none ∧
      (parseCitation s).subsection = none ∧
      (parseCitation s).paragraph = none) := by
  simp only [parseCitation]
  split
  · simp
  · split
    · rename_i sec t2 hm
      exact parseSection_claim1 _ _ _ _ (sectionThenTitle_digitHeaded hm)
    · split
      · rename_i t1 sec hm
        exact parseSection_claim1 _ _ _ _ (titleThenSection_digitHeaded hm)
      · split
        · rename_i sec t2 hm
          exact parseSection_claim1 _ _ _ _ (machineRefThenTitle_digitHeaded hm)
        · split
          · rename_i sec title y hm
            exact parseSection_claim1 _ _ _ _ (legacyEnglish_digitHeaded hm)
          · split
            · rename_i r hm
              exact parseSection_claim1 _ _ _ _ (bareParaSec_digitHeaded hm)
            · split
              · rename_i sec hm
                exact parseSection_claim1 _ _ _ _ (bareSymbolic_digitHeaded hm)
              · simp

/-- Witness for C1 at a concrete input: `"§ 5 DSG"` parses as valid, so the
theorem yields its non-empty section. -/
theorem claim1_witness :
    ∃ t, (parseCitation "§ 5 DSG".data).«section» = some t ∧ t ≠ [] :=
  (claim1_parseCitation_invariant "§ 5 DSG".data).1 (by decide)

/-- C10 (implicit): `parseCitation` never returns kind
`statutory_instrument`: every valid result is a `statute`, every invalid
result is `unknown`, so that enum value is unreachable at the public
interface. -/
theorem claim10_no_statutory_instrument (s : Str) :
    ((parseCitation s).valid = true →
      (parseCitation s).type = CitKind.statute) ∧
    ((parseCitation s).valid = false →
      (parseCitation s).type = CitKind.unknown) ∧
    (parseCitation s).type ≠ CitKind.statutory_instrument := by
  simp only [parseCitation]
  split
  · simp
  · split
    · exact parseSection_claim10 _ _ _
    · split
      · exact parseSection_claim10 _ _ _
      · split
        · exact parseSection_claim10 _ _ _
        · split
          · exact parseSection_claim10 _ _ _
          · split
            · exact parseSection_claim10 _ _ _
            · split
              · exact parseSection_claim10 _ _ _
              · simp

/-- Witness for C10 at a concrete input: `"para7"` parses as valid and the
theorem forces its kind to `statute`. -/
theorem claim10_witness :
    (parseCitation "para7".data).type = CitKind.statute :=
  (claim10_no_statutory_instrument "para7".data).1 (by decide)

/-- C7: round-trip through the canonical form: parsing `"§ 3(1)(a), DSG"` and
re-formatting with the `full` style reproduces the input exactly. -/
theorem claim7_roundtrip_canonical_form :
    formatCitation (parseCitation "§ 3(1)(a), DSG".data) CitationFormat.full
      = "§ 3(1)(a), DSG".data := by decide

/-- C8: parsing an empty or whitespace-only citation yields `valid = false`
with the error message `"Empty citation"` (which contains `"Empty"`), and
formatting any citation with `valid = false` or an absent section returns
the empty string in every style. -/
theorem claim8_empty_and_format_noop :
    (∀ s : Str, jsTrim s = [] →
      parseCitation s =
        { valid := false, type := CitKind.unknown,
          error := some "Empty citation".data }) ∧
    containsSub "Empty".data "Empty citation".data = true ∧
    (∀ (c : ParsedCitation) (f : CitationFormat),
      c.valid = false ∨ c.«section» = none → formatCitation c f = []) := by
  refine ⟨fun s hs => ?_, by decide, fun c f h => ?_⟩
  · simp only [parseCitation, hs]
    simp
  · simp only [formatCitation]
    rcases h with h | h
    · rw [h]; simp
    · rw [h]; simp

/-- Witness for C8: the whitespace-only citation `"   "` yields the empty
error record, and formatting the failed parse of `""` yields `""`. -/
theorem claim8_witness :
    parseCitation "   ".data =
      { valid := false, type := CitKind.unknown,
        error := some "Empty citation".data } ∧
    formatCitation (parseCitation "".data) CitationFormat.full = [] :=
  ⟨claim8_empty_and_format_noop.1 "   ".data (by decide),
   claim8_empty_and_format_noop.2.2 (parseCitation "".data) CitationFormat.full
     (Or.inl (by decide))⟩

theorem dropWhile_length_le (p : Char → Bool) (l : Str) :
    (l.dropWhile p).length ≤ l.length := by
  induction l with
  | nil => simp
  | cons c t ih =>
    by_cases hc : p c = true
    · rw [List.dropWhile_cons_of_pos hc]
      exact le_trans ih (by simp)
    · rw [List.dropWhile_cons_of_neg (by simp [hc])]

theorem dropWhile_eq_self_head {p : Char → Bool} {c : Char} {t : Str}
    (h : (c :: t).dropWhile p = c :: t) : p c = false := by
  by_contra hc
  simp only [Bool.not_eq_false] at hc
  rw [List.dropWhile_cons_of_pos hc] at h
  have hlen := congrArg List.length h
  have hle := dropWhile_length_le p t
  simp at hlen
  omega

theorem jsTrim_of_stable {s : Str} (hL : s.dropWhile isJsWs = s)
    (hR : s.reverse.dropWhile isJsWs = s.reverse) : jsTrim s = s := by
  simp only [jsTrim, jsTrimLeft, jsTrimRight, hL, hR, List.reverse_reverse]

/-- Supporting lemma for C6: `splitYear` extracts a trailing bare 4-digit
token from a whitespace-stable non-empty title. -/
theorem splitYear_extracts (s d : Str) (hL : s.dropWhile isJsWs = s)
    (hR : s.reverse.dropWhile isJsWs = s.reverse) (hs : s ≠ [])
    (hd4 : d.length = 4) (hdd : d.all isDigitC = true) :
    splitYear (s ++ ' ' :: d) = (s, some (digitsToNat d)) := by
  obtain ⟨c, s', rfl⟩ : ∃ c s', s = c :: s' := by
    cases s with
    | nil => exact absurd rfl hs
    | cons c s' => exact ⟨c, s', rfl⟩
  have hpc : isJsWs c = false := dropWhile_eq_self_head hL
  have hdne : d ≠ [] := by intro h; rw [h] at hd4; simp at hd4
  obtain ⟨e, dr, hdr⟩ : ∃ e dr, d.reverse = e :: dr := by
    cases hde : d.reverse with
    | nil => exact absurd (by simpa using congrArg List.reverse hde) hdne
    | cons e dr => exact ⟨e, dr, rfl⟩
  have hemem : e ∈ d := by
    have : e ∈ d.reverse := by rw [hdr]; exact List.mem_cons_self e dr
    simpa using this
  have he : isDigitC e = true := by
    rw [List.all_eq_true] at hdd
    exact hdd e hemem
  have hews : isJsWs e = false := digit_not_ws he
  -- the concatenated title is trim-stable
  have htrim : jsTrim ((c :: s') ++ ' ' :: d) = (c :: s') ++ ' ' :: d := by
    apply jsTrim_of_stable
    · rw [show (c :: s') ++ ' ' :: d = c :: (s' ++ ' ' :: d) from rfl]
      rw [List.dropWhile_cons_of_neg (by simp [hpc])]
    · rw [List.reverse_append, List.reverse_cons, List.append_assoc, hdr]
      simp only [List.cons_append]
      rw [List.dropWhile_cons_of_neg (by simp [hews])]
  have hrev : ((c :: s') ++ ' ' :: d).reverse = d.reverse ++ ' ' :: (c :: s').reverse := by
    simp
  have hlen4 : (d.reverse).length = 4 := by simpa using hd4
  have htake : (d.reverse ++ ' ' :: (c :: s').reverse).take 4 = d.reverse := by
    rw [← hlen4, List.take_left]
  have hdrop : (d.reverse ++ ' ' :: (c :: s').reverse).drop 4 = ' ' :: (c :: s').reverse := by
    rw [← hlen4, List.drop_left]
  have halld : (d.reverse).all isDigitC = true := by
    rw [List.all_eq_true] at hdd ⊢
    intro x hx
    exact hdd x (by simpa using hx)
  simp only [splitYear, htrim, hrev, htake, hdrop, hlen4, halld]
  rw [if_pos (by simp [halld, show isJsWs ' ' = true from by decide])]
  simp only [Prod.mk.injEq]
  refine ⟨?_, ?_⟩
  · rw [List.dropWhile_cons_of_pos (by decide), hR, List.reverse_reverse]
    exact jsTrim_of_stable hL hR
  · rw [List.reverse_reverse]

/-- C6: `"Section 3, Data Protection Act 2018"` parses to section `"3"`,
title `"Data Protection Act"` and year 2018; the same title/year separation
happens in the other grammar forms that carry a title (section-first,
title-first and machine-ref forms, which route the title through
`splitYear`), and `splitYear` extracts a trailing bare 4-digit token from any
whitespace-stable title, removing it and trimming. -/
theorem claim6_title_year_separation :
    (parseCitation "Section 3, Data Protection Act 2018".data =
      { valid := true, type := CitKind.statute,
        title := some "Data Protection Act".data, year := some 2018,
        «section» := some "3".data }) ∧
    (parseCitation "§ 3, Foo 2018".data =
      { valid := true, type := CitKind.statute, title := some "Foo".data,
        year := some 2018, «section» := some "3".data }) ∧
    (parseCitation "Foo 2018 § 3".data =
      { valid := true, type := CitKind.statute, title := some "Foo".data,
        year := some 2018, «section» := some "3".data }) ∧
    (parseCitation "para3, Foo 2018".data =
      { valid := true, type := CitKind.statute, title := some "Foo".data,
        year := some 2018, «section» := some "3".data }) ∧
    ∀ s d : Str, s.dropWhile isJsWs = s →
      s.reverse.dropWhile isJsWs = s.reverse → s ≠ [] → d.length = 4 →
      d.all isDigitC = true →
      splitYear (s ++ ' ' :: d) = (s, some (digitsToNat d)) :=
  ⟨by decide, by decide, by decide, by decide, splitYear_extracts⟩

/-- Witness for C6's general part at the claim's own example title. -/
theorem claim6_witness :
    splitYear ("Data Protection Act".data ++ ' ' :: "2018".data)
      = ("Data Protection Act".data, some (digitsToNat "2018".data)) :=
  claim6_title_year_separation.2.2.2.2 "Data Protection Act".data "2018".data
    (by decide) (by decide) (by decide) (by decide) (by decide)

/-! ### FTS5 query builder (the fts-query module)

The `EXPLICIT_FTS_SYNTAX` character class `["""]` of the source consists of
three plain ASCII quote characters, so it denotes exactly the set containing
the double quote. -/

/-- JS `[\p\x7bL\x7d\p\x7bN\x7d_-]` of `sanitizeToken`, embedded for the Latin
repertoire the corpus uses: ASCII letters and digits, underscore, hyphen,
Latin-1 letters (excluding the × and ÷ signs), Latin Extended-A/B, and the
capital ẞ.  Code points of other scripts are not classified as letters by
this embedding. -/
def isTokenChar (c : Char) : Bool :=
  let n := c.toNat
  isDigitC c || isAsciiLetter c || n = 95 || n = 45 ||
  (192 ≤ n && n ≤ 255 && !(n = 215) && !(n = 247)) ||
  (256 ≤ n && n ≤ 591) || n = 7838

/-- One FTS5-special character of `FTS5_SPECIAL_CHARS`:
`"`, `(`, `)`, the two braces, `^`, `:`, `+`, `-`, `~`. -/
def isFts5Special (c : Char) : Bool :=
  c = '"' || c = '(' || c = ')' || c = '\x7b' || c = '\x7d' || c = '^' ||
  c = ':' || c = '+' || c = '-' || c = '~'

/-- Word-boundary-delimited occurrence test for a case-sensitive keyword all
of whose characters are JS word characters (`\bAND\b` and friends): the
keyword must occur with a non-word (or edge) character on both sides. -/
def wordHereCS (w : Str) (cs : Str) : Bool :=
  match stripCS w cs with
  | some [] => true
  | some (c :: _) => !isWordC c
  | none => false

/-- Scan for a `\b`-delimited keyword; `bnd` records whether the previous
character (or the string edge) was a non-word character. -/
def cwGo (w : Str) : Bool → Str → Bool
  | _, [] => false
  | bnd, c :: rest => (bnd && wordHereCS w (c :: rest)) || cwGo w (!isWordC c) rest

/-- Whether `cs` contains a `\b`-delimited occurrence of the keyword `w`. -/
def containsWordCS (w : Str) (cs : Str) : Bool := cwGo w true cs

/-- Embedding of the `EXPLICIT_FTS_SYNTAX` test: a double quote anywhere, a
whole-word `AND`/`OR`/`NOT` (case-sensitive), or a trailing `*`. -/
def explicitFtsSyntax (cs : Str) : Bool :=
  cs.any (fun c => c = '"') ||
  containsWordCS "AND".data cs || containsWordCS "OR".data cs ||
  containsWordCS "NOT".data cs ||
  (match cs.getLast? with
   | some c => c = '*'
   | none => false)

/-- Embedding of `sanitizeToken`: keep only letters, digits, underscore and
hyphen. -/
def sanitizeToken (token : Str) : Str := token.filter isTokenChar

/-- JS `Array.prototype.join(sep)`. -/
def joinSep (sep : Str) : List Str → Str
  | [] => []
  | [t] => t
  | t :: u :: ts => t ++ sep ++ joinSep sep (u :: ts)

/-- The token pipeline of `buildFtsQueryVariants`:
`trimmed.split(/\s+/) |> filter nonempty |> map sanitizeToken |> filter
nonempty`.  Splitting on single whitespace characters and dropping empty
chunks coincides with splitting on whitespace runs. -/
def ftsTokens (trimmed : Str) : List Str :=
  (((trimmed.splitOnP isJsWs).filter (fun t => !t.isEmpty)).map
    sanitizeToken).filter (fun t => !t.isEmpty)

/-- FtsQueryVariants from the engine's data model. -/
structure FtsQueryVariants where
  primary : Str
  fallback : Option Str := none
deriving DecidableEq, Repr

/-- Embedding of `buildSanitizedFallback`: replace FTS5-special characters by
spaces, tokenize, sanitize, and OR-join the quoted prefix-wildcarded tokens;
`none` when no token survives. -/
def buildSanitizedFallback (query : Str) : Option Str :=
  let tokens :=
    (((query.map (fun c => if isFts5Special c then ' ' else c)).splitOnP
        isJsWs).map sanitizeToken).filter (fun t => !t.isEmpty)
  if tokens.isEmpty then none
  else some (joinSep " OR ".data (tokens.map (fun t => '"' :: t ++ "\"*".data)))

/-- Embedding of `buildFtsQueryVariants`. -/
def buildFtsQueryVariants (query : Str) : FtsQueryVariants :=
  let trimmed := jsTrim query
  if explicitFtsSyntax trimmed then
    { primary := trimmed, fallback := buildSanitizedFallback trimmed }
  else
    let tokens := ftsTokens trimmed
    if tokens.isEmpty then { primary := trimmed, fallback := none }
    else
      { primary := joinSep " ".data (tokens.map (fun t => '"' :: t ++ "\"*".data)),
        fallback := some (joinSep " OR ".data (tokens.map (fun t => t ++ ['*']))) }

/-- Consume one `"token"*` item of a safe primary query: the token must be
non-empty and consist of sanctioned token characters only.  Returns the
remainder after the item. -/
def safeItem (cs : Str) : Option Str :=
  match cs with
  | '"' :: r =>
    let tok := r.takeWhile isTokenChar
    if tok.isEmpty then none
    else
      match r.drop tok.length with
      | '"' :: '*' :: rest => some rest
      | _ => none
  | _ => none

/-- Fuel-indexed checker that a string is a space-joined non-empty sequence
of `"token"*` items (the shape every sanitized primary query has, which the
FTS5 query grammar accepts).  One unit of fuel per item; each item consumes
at least four characters, so `cs.length` fuel always suffices. -/
def safePrimaryShapeAux : Nat → Str → Bool
  | 0, _ => false
  | fuel + 1, cs =>
    match safeItem cs with
    | none => false
    | some [] => true
    | some (' ' :: rest) => safePrimaryShapeAux fuel rest
    | some _ => false

/-- Safe-shape predicate for a primary query (see `safePrimaryShapeAux`). -/
def safePrimaryShape (cs : Str) : Bool := safePrimaryShapeAux cs.length cs

theorem takeWhile_append_all {p : Char → Bool} {t : Str} (h : t.all p = true)
    (l : Str) : (t ++ l).takeWhile p = t ++ l.takeWhile p := by
  induction t with
  | nil => simp
  | cons c t' ih =>
    simp only [List.all_cons, Bool.and_eq_true] at h
    rw [List.cons_append, List.takeWhile_cons_of_pos h.1, ih h.2,
      List.cons_append]

theorem safeItem_quoted {t : Str} (rest : Str) (ht : ¬t.isEmpty)
    (hall : t.all isTokenChar = true) :
    safeItem ('"' :: (t ++ '"' :: '*' :: rest)) = some rest := by
  simp only [safeItem]
  rw [takeWhile_append_all hall, List.takeWhile_cons_of_neg (by decide),
    List.append_nil]
  rw [if_neg (by simpa using ht)]
  rw [List.drop_left]
  rfl

/-- A space-join of non-empty sanitized quoted prefix-wildcard tokens passes
the safe-shape check, given enough fuel. -/
theorem safeShape_joinSep :
    ∀ (ts : List Str) (fuel : Nat), ts ≠ [] →
      (∀ t ∈ ts, ¬t.isEmpty ∧ t.all isTokenChar = true) →
      (joinSep [' '] (ts.map (fun t => '"' :: t ++ ['"', '*']))).length ≤ fuel →
      safePrimaryShapeAux fuel
        (joinSep [' '] (ts.map (fun t => '"' :: t ++ ['"', '*']))) = true := by
  intro ts
  induction ts with
  | nil => intro fuel h; exact absurd rfl h
  | cons t ts' ih =>
    intro fuel _ hall hlen
    obtain ⟨ht, htok⟩ := hall t (List.mem_cons_self t ts')
    cases ts' with
    | nil =>
      cases fuel with
      | zero => simp [joinSep] at hlen
      | succ m =>
        simp only [List.map, joinSep, safePrimaryShapeAux]
        rw [show ('"' :: t ++ ['"', '*'] : Str) = '"' :: (t ++ '"' :: '*' :: [])
              from by simp]
        rw [safeItem_quoted [] ht htok]
    | cons u ts'' =>
      cases fuel with
      | zero => simp [joinSep] at hlen
      | succ m =>
        have hjoin :
            joinSep [' '] (((t :: u :: ts'').map (fun t => '"' :: t ++ ['"', '*'])))
              = '"' :: (t ++ '"' :: '*' :: (' ' ::
                  joinSep [' '] ((u :: ts'').map (fun t => '"' :: t ++ ['"', '*'])))) := by
          simp [joinSep]
        rw [hjoin] at hlen ⊢
        simp only [safePrimaryShapeAux]
        rw [safeItem_quoted _ ht htok]
        have hrest :
            (joinSep [' '] ((u :: ts'').map (fun t => '"' :: t ++ ['"', '*']))).length ≤ m := by
          simp only [List.length_cons, List.length_append] at hlen
          omega
        exact ih m (by simp) (fun x hx => hall x (List.mem_cons_of_mem t hx)) hrest

theorem ftsTokens_facts (trimmed : Str) :
    ∀ t ∈ ftsTokens trimmed, ¬t.isEmpty ∧ t.all isTokenChar = true := by
  intro t ht
  simp only [ftsTokens, List.mem_filter, List.mem_map] at ht
  obtain ⟨⟨u, hu, rfl⟩, hne⟩ := ht
  refine ⟨by simpa using hne, ?_⟩
  rw [List.all_eq_true]
  intro x hx
  simp only [sanitizeToken, List.mem_filter] at hx
  exact hx.2

/-- C3 counterexample: `"!!!"` carries no explicit search-syntax marker, yet
the returned primary is the raw trimmed input `"!!!"`, which is not of the
quoted prefix-wildcard shape (the characters `!` are rejected by the FTS5
query grammar outside a string). -/
theorem claim3_counterexample :
    explicitFtsSyntax (jsTrim "!!!".data) = false ∧
    (buildFtsQueryVariants "!!!".data).primary = "!!!".data ∧
    safePrimaryShape ((buildFtsQueryVariants "!!!".data).primary) = false := by
  decide

/-- C3 (amended): for every input without explicit search-syntax markers, if
at least one token survives sanitization then the primary is a space-joined
sequence of quoted, prefix-wildcarded sanitized tokens (a shape the search
grammar accepts); if sanitization removes every token, the primary falls
back to the raw trimmed input and no fallback is produced. -/
theorem claim3_sanitized_primary_shape (q : Str)
    (hq : explicitFtsSyntax (jsTrim q) = false) :
    (ftsTokens (jsTrim q) ≠ [] →
      safePrimaryShape (buildFtsQueryVariants q).primary = true) ∧
    (ftsTokens (jsTrim q) = [] →
      (buildFtsQueryVariants q).primary = jsTrim q ∧
      (buildFtsQueryVariants q).fallback = none) := by
  constructor
  · intro hne
    simp only [buildFtsQueryVariants, hq, Bool.false_eq_true, if_false]
    rw [if_neg (by simpa using hne)]
    exact safeShape_joinSep (ftsTokens (jsTrim q)) _ hne
      (ftsTokens_facts (jsTrim q)) le_rfl
  · intro hemp
    simp only [buildFtsQueryVariants, hq, Bool.false_eq_true, if_false]
    rw [if_pos (by simpa using hemp)]
    exact ⟨rfl, rfl⟩

/-- Witness for C3 at a concrete sanitizable input. -/
theorem claim3_witness :
    safePrimaryShape (buildFtsQueryVariants "Grund rechte".data).primary = true :=
  (claim3_sanitized_primary_shape "Grund rechte".data (by decide)).1 (by decide)

/-! ### Content cleaner (src/utils/content-cleaner.ts)

The twelve `METADATA_LINE_PATTERNS`, the `KEYWORD_LINE_PATTERN`, the verb
guard of `isKeywordLine` and `TRAILING_SECTION_REF` are embedded as
whole-line boolean matchers (only `.test` is used on them, so only match
existence is observable) plus a leftmost-match remover for the trailing
reference.  Tail pieces of the form `\s+.+$` and `\s*.+$` enumerate the
whitespace split because `.` also matches non-terminator whitespace. -/

/-- Greedy `\s*` skip. -/
def skipWs (cs : Str) : Str := cs.dropWhile isJsWs

/-- Existence of a split of `\s+(.+)$` over `r` (at least one whitespace
character consumed, the rest non-empty and terminator-free). -/
def dotTailFromPos : Nat → Str → Bool
  | 0, _ => false
  | i + 1, r =>
    (let v := r.drop (i + 1); !v.isEmpty && noTerm v) || dotTailFromPos i r

/-- Whole-tail matcher for `\s+.+$`. -/
def wsPlusDotTail (r : Str) : Bool := dotTailFromPos (wsRunLen r) r

/-- Whole-tail matcher for `\s*.+$`. -/
def wsStarDotTail (r : Str) : Bool := (!r.isEmpty && noTerm r) || wsPlusDotTail r

/-- Roman-numeral characters of the `[IVX]+` series group. -/
def isRoman (c : Char) : Bool := c = 'I' || c = 'V' || c = 'X'

/-- Tail `Nr\.\s*.+$` used by the BGBl alternatives. -/
def nrDotTail (u : Str) : Bool :=
  match stripCS "Nr.".data u with
  | some r => wsStarDotTail r
  | none => false

/-- Tail of the first `BGBl` alternative after the optional dot:
`\s*(?:(?:[IVX]+\s+)?Nr\.)\s*.+$`. -/
def bgblTail (u : Str) : Bool :=
  let v := skipWs u
  (let rom := v.takeWhile isRoman
   if rom.isEmpty then false
   else
     let r3 := v.drop rom.length
     let wsr := wsRunLen r3
     if wsr = 0 then false else nrDotTail (r3.drop wsr)) ||
  nrDotTail v

/-- Tail of the `StGBl` alternative after the optional dot:
`\s*(?:Nr\.)?\s*.+$`. -/
def stgblTail (u : Str) : Bool :=
  (match stripCS "Nr.".data (skipWs u) with
   | some r => wsStarDotTail r
   | none => false) || wsStarDotTail u

/-- Metadata pattern 1, publication references:
`^(?:BGBl\.?\s*(?:(?:[IVX]+\s+)?Nr\.)\s*.+|JGS\s+Nr\.\s*.+|StGBl\.?\s*(?:Nr\.)?\s*.+)$`
(case-sensitive). -/
def metaBgbl (line : Str) : Bool :=
  (match stripCS "BGBl".data line with
   | some r0 =>
     (match r0 with
      | '.' :: t => bgblTail t
      | _ => bgblTail r0)
   | none => false) ||
  (match stripCS "JGS".data line with
   | some r =>
     if wsRunLen r = 0 then false else nrDotTail (skipWs r)
   | none => false) ||
  (match stripCS "StGBl".data line with
   | some r0 =>
     (match r0 with
      | '.' :: t => stgblTail t || stgblTail r0
      | _ => stgblTail r0)
   | none => false)

/-- Metadata pattern 2, document-type abbreviations:
`^(?:BG|BVG|V|StF|GZ|Vertrag\s+–\s+.+)$`. -/
def metaDocType (line : Str) : Bool :=
  line = "BG".data || line = "BVG".data || line = "V".data ||
  line = "StF".data || line = "GZ".data ||
  (match stripCS "Vertrag".data line with
   | some r =>
     let w1 := wsRunLen r
     if w1 = 0 then false
     else
       match r.drop w1 with
       | '–' :: r2 => wsPlusDotTail r2
       | _ => false
   | none => false)

/-- Tail `\s*\d+\w*$` of the standalone section-marker pattern. -/
def secMarkTail (u : Str) : Bool :=
  let v := skipWs u
  let ds := v.takeWhile isDigitC
  !ds.isEmpty && (v.drop ds.length).all isWordC

/-- Metadata pattern 3, standalone section markers:
`^(?:§\s*\d+\w*|Art\.?\s*\d+\w*|Anl\.?\s*\d+\w*)$`. -/
def metaSecMark (line : Str) : Bool :=
  (match line with
   | '§' :: r => secMarkTail r
   | _ => false) ||
  (match stripCS "Art".data line with
   | some r0 =>
     (match r0 with
      | '.' :: t => secMarkTail t
      | _ => secMarkTail r0)
   | none => false) ||
  (match stripCS "Anl".data line with
   | some r0 =>
     (match r0 with
      | '.' :: t => secMarkTail t
      | _ => secMarkTail r0)
   | none => false)

/-- The `[A-ZÄÖÜ]` upper-case class of the cleaner patterns. -/
def isUpperAZUml (c : Char) : Bool :=
  (65 ≤ c.toNat && c.toNat ≤ 90) || c = 'Ä' || c = 'Ö' || c = 'Ü'

/-- Metadata pattern 4, classification-index lines:
`^\d\x7b2\x7d\/\d\x7b2\x7d\s+[A-ZÄÖÜ].+$`. -/
def metaIndex (line : Str) : Bool :=
  match line with
  | a :: b :: '/' :: c :: d :: r =>
    isDigitC a && isDigitC b && isDigitC c && isDigitC d &&
    (if wsRunLen r = 0 then false
     else
       match skipWs r with
       | u :: rest => isUpperAZUml u && !rest.isEmpty && noTerm rest
       | [] => false)
  | _ => false

/-- The `[A-ZÄÖÜa-zäöü\-]` class of the abbreviation pattern (no ß). -/
def isAbbrevChar (c : Char) : Bool :=
  isUpperAZUml c || (97 ≤ c.toNat && c.toNat ≤ 122) || c = 'ä' || c = 'ö' ||
  c = 'ü' || c = '-'

/-- Metadata pattern 5, standalone short names:
`^[A-ZÄÖÜ][A-ZÄÖÜa-zäöü\-]\x7b0,8\x7d$`. -/
def metaAbbrev (line : Str) : Bool :=
  match line with
  | c :: rest =>
    isUpperAZUml c && decide (rest.length ≤ 8) && rest.all isAbbrevChar
  | [] => false

/-- Metadata pattern 6, NOR numbers: `^NOR\d+$`. -/
def metaNor (line : Str) : Bool :=
  match stripCS "NOR".data line with
  | some r => !r.isEmpty && r.all isDigitC
  | none => false

/-- Metadata pattern 7, internal RIS ids: `^N\d\x7b5,\x7d[A-Z]$`. -/
def metaInternalId (line : Str) : Bool :=
  match line with
  | 'N' :: r =>
    (match r.getLast? with
     | some u =>
       (65 ≤ u.toNat && u.toNat ≤ 90) && decide (5 ≤ r.dropLast.length) &&
       r.dropLast.all isDigitC
     | none => false)
  | _ => false

/-- Metadata pattern 8, standalone Gesetzesnummern: `^\d\x7b7,8\x7d$`. -/
def metaGesetzNum (line : Str) : Bool :=
  line.all isDigitC && (decide (line.length = 7) || decide (line.length = 8))

/-- Metadata pattern 9, standalone dates: `^\d\x7b2\x7d\.\d\x7b2\x7d\.\d\x7b4\x7d$`. -/
def metaDate (line : Str) : Bool :=
  match line with
  | [a, b, '.', c, d, '.', e, f, g, h] =>
    isDigitC a && isDigitC b && isDigitC c && isDigitC d && isDigitC e &&
    isDigitC f && isDigitC g && isDigitC h
  | _ => false

/-- Tail `\s*\d+.*$` of the amendment pattern. -/
def numDotStar (w : Str) : Bool :=
  let v := skipWs w
  let ds := v.takeWhile isDigitC
  !ds.isEmpty && noTerm (v.drop ds.length)

/-- Tail of the amendment pattern after its comma:
`\s*BGBl\.?\s*(?:Nr\.|I\s+Nr\.)\s*\d+.*$`. -/
def amendTail (u : Str) : Bool :=
  match stripCS "BGBl".data (skipWs u) with
  | some r0 =>
    let body : Str → Bool := fun r =>
      let v := skipWs r
      (match stripCS "Nr.".data v with
       | some w => numDotStar w
       | none => false) ||
      (match v with
       | 'I' :: v2 =>
         if wsRunLen v2 = 0 then false
         else
           match stripCS "Nr.".data (skipWs v2) with
           | some w => numDotStar w
           | none => false
       | _ => false)
    (match r0 with
     | '.' :: t => body t
     | _ => body r0)
  | none => false

/-- Scan for the comma of the amendment pattern
`^.\x7b0,60\x7d,\s*BGBl...$`: the comma may sit after at most 60
terminator-free prefix characters. -/
def amendScan : Nat → Str → Bool
  | _, [] => false
  | fuel, c :: rest =>
    ((c == ',') && amendTail rest) ||
    (if isTermC c then false
     else
       match fuel with
       | 0 => false
       | f + 1 => amendScan f rest)

/-- Metadata pattern 10, amendment/keyword lines ending in a BGBl
reference. -/
def metaAmend (line : Str) : Bool := amendScan 60 line

/-- The case-insensitive ordinal stems of the structural-heading pattern. -/
def ordinalStems : List Str :=
  ["erst".data, "zweit".data, "dritt".data, "viert".data, "fünft".data,
   "sechst".data, "siebent".data, "acht".data, "neunt".data, "zehnt".data]

/-- Division words `Haupt(?:stück|teil)|Abschnitt|Teil|Buch` with the
optional final dot (case-insensitive, anchored at the end). -/
def divisionWord (u : Str) : Bool :=
  ["hauptstück".data, "hauptteil".data, "abschnitt".data, "teil".data,
   "buch".data].any (fun w =>
    match stripCI w u with
    | some [] => true
    | some ['.'] => true
    | _ => false)

/-- Suffix `(?:e[sr]?)\s+<division>\.?$` after an ordinal stem. -/
def headingAfterStem (r : Str) : Bool :=
  match r with
  | e :: r1 =>
    if lowerC e = 'e' then
      let r2 :=
        match r1 with
        | c :: t => if lowerC c = 's' || lowerC c = 'r' then t else r1
        | [] => r1
      if wsRunLen r2 = 0 then false else divisionWord (skipWs r2)
    else false
  | [] => false

/-- Metadata pattern 11, structural chapter headings (case-insensitive). -/
def metaHeading (line : Str) : Bool :=
  ordinalStems.any (fun st =>
    match stripCI st line with
    | some r => headingAfterStem r
    | none => false)

/-- Disjunction of `METADATA_LINE_PATTERNS`, in source order. -/
def isMetadataLine (line : Str) : Bool :=
  metaBgbl line || metaDocType line || metaSecMark line || metaIndex line ||
  metaAbbrev line || metaNor line || metaInternalId line ||
  metaGesetzNum line || metaDate line || metaAmend line || metaHeading line

/-- The term character class `[A-ZÄÖÜa-zäöüß\s\-]` of
`KEYWORD_LINE_PATTERN` (letters including ß, whitespace, hyphen). -/
def isKwChar (c : Char) : Bool :=
  isUpperAZUml c || (97 ≤ c.toNat && c.toNat ≤ 122) || c = 'ä' || c = 'ö' ||
  c = 'ü' || c = 'ß' || isJsWs c || c = '-'

/-- The term-initial letter class `[A-ZÄÖÜa-zäöüß]` of
`KEYWORD_LINE_PATTERN`. -/
def isKwLetter (c : Char) : Bool :=
  isUpperAZUml c || (97 ≤ c.toNat && c.toNat ≤ 122) || c = 'ä' || c = 'ö' ||
  c = 'ü' || c = 'ß'

/-- Comma-separated parts, with the single optional trailing empty part (from
the optional final comma of the pattern) removed. -/
def kwCoreParts (line : Str) : List Str :=
  let ps := line.splitOnP (fun c => c == ',')
  match ps.getLast? with
  | some [] => ps.dropLast
  | _ => ps

/-- Existence matcher for `KEYWORD_LINE_PATTERN`:
`^(?:[L][C]*,\s*)\x7b2,\x7d[L][C]*,?$` where `L` is the letter class and `C` the
term class.  A full match exists exactly when every character is a term
character or a comma, there are at least three comma-separated core parts,
the first part starts with a letter directly, and every later part starts
with a letter after its leading whitespace (consumed by the unit's `\s*`). -/
def kwLineMatch (line : Str) : Bool :=
  line.all (fun c => isKwChar c || c == ',') &&
  (match kwCoreParts line with
   | p0 :: p1 :: p2 :: rest =>
     (match p0 with
      | c :: _ => isKwLetter c
      | [] => false) &&
     ((p1 :: p2 :: rest).all (fun p =>
        match skipWs p with
        | c :: _ => isKwLetter c
        | [] => false))
   | _ => false)

/-- One verb word matched case-insensitively at the current position, with a
JS `\b` boundary after it: the wordness of the last matched character must
differ from that of the following character (string edges count as
non-word). -/
def wordHereCI (w : Str) (cs : Str) : Bool :=
  match stripCI w cs with
  | some r =>
    (match w.getLast? with
     | some lc =>
       (match r with
        | [] => isWordC lc
        | c :: _ => decide (isWordC lc ≠ isWordC c))
     | none => false)
  | none => false

/-- Scan for a `\b`-delimited case-insensitive word; `pw` is the wordness of
the previous character, `hw` that of the word's first character. -/
def vwGo (w : Str) (hw : Bool) : Bool → Str → Bool
  | _, [] => false
  | pw, c :: rest =>
    (decide (pw ≠ hw) && wordHereCI w (c :: rest)) || vwGo w hw (isWordC c) rest

/-- Whether `cs` contains a `\b`-delimited case-insensitive occurrence of
`w`.  Note that `\w` is ASCII, so for `über` the leading boundary requires a
preceding word character, and `gemäß` requires a following one. -/
def containsWordCI (w : Str) (cs : Str) : Bool :=
  match w with
  | [] => false
  | hc :: _ => vwGo w (isWordC hc) false cs

/-- The sentence-forming function words of the verb guard in
`isKeywordLine`. -/
def verbWords : List Str :=
  ["ist".data, "sind".data, "wird".data, "werden".data, "hat".data,
   "haben".data, "kann".data, "können".data, "soll".data, "sollen".data,
   "darf".data, "dürfen".data, "muss".data, "müssen".data, "gemäß".data,
   "nach".data, "durch".data, "auf".data, "über".data, "bei".data,
   "unter".data]

/-- Embedding of the verb/preposition guard regex test of `isKeywordLine`. -/
def verbTest (line : Str) : Bool :=
  verbWords.any (fun w => containsWordCI w line)

/-- Embedding of `isKeywordLine`. -/
def isKeywordLine (line : Str) : Bool :=
  if !kwLineMatch line then false
  else
    let terms := (line.splitOnP (fun c => c == ',')).map jsTrim
    if terms.any (fun t => decide (40 < t.length)) then false
    else if verbTest line then false
    else true

/-- Tail `\s*\d+\w*\.?\s*$` of `TRAILING_SECTION_REF` after the marker
word. -/
def refNum (r : Str) : Bool :=
  let v := skipWs r
  let ds := v.takeWhile isDigitC
  if ds.isEmpty then false
  else
    match (v.drop ds.length).dropWhile isWordC with
    | '.' :: rest => rest.all isJsWs
    | w => w.all isJsWs

/-- The alternation `(?:§\s*\d+\w*|Artikel\s*\d+\w*)` plus tail of
`TRAILING_SECTION_REF`. -/
def refBody (u : Str) : Bool :=
  (match u with
   | '§' :: r => refNum r
   | _ => false) ||
  (match stripCS "Artikel".data u with
   | some r => refNum r
   | none => false)

/-- Whether `TRAILING_SECTION_REF` matches this entire suffix (the match is
anchored at `$`, so it always extends to the end of the string). -/
def trailingRefAt (cs : Str) : Bool :=
  if wsRunLen cs = 0 then false else refBody (skipWs cs)

/-- Leftmost-match removal of `TRAILING_SECTION_REF` (a single
non-global `replace`): the string is cut at the first position whose suffix
matches. -/
def stripTrailingRefGo (acc : Str) : Str → Str
  | [] => acc.reverse
  | c :: r =>
    if trailingRefAt (c :: r) then acc.reverse else stripTrailingRefGo (c :: acc) r

/-- Embedding of `cleaned.replace(TRAILING_SECTION_REF, '')`. -/
def stripTrailingRef (cs : Str) : Str := stripTrailingRefGo [] cs

/-- Global replacement of runs of three or more newlines by exactly two
(`cleaned.replace(/\n\x7b3,\x7d/g, '\n\n')`).  Fuel-indexed; each step consumes
at least one character, so `cs.length` fuel suffices. -/
def collapseNewlinesAux : Nat → Str → Str
  | 0, cs => cs
  | fuel + 1, cs =>
    match cs with
    | [] => []
    | '\n' :: r =>
      let k := 1 + (r.takeWhile (fun c => c == '\n')).length
      (if 3 ≤ k then ['\n', '\n'] else List.replicate k '\n') ++
        collapseNewlinesAux fuel (r.drop (k - 1))
    | c :: r => c :: collapseNewlinesAux fuel r

/-- See `collapseNewlinesAux`. -/
def collapseNewlines (cs : Str) : Str := collapseNewlinesAux cs.length cs

/-- Pass 2 of the cleaner: repeatedly drop the last line while its trimmed
form is a keyword line. -/
def dropTrailingKeywordLines (lines : List Str) : List Str :=
  (lines.reverse.dropWhile (fun l => isKeywordLine (jsTrim l))).reverse

/-- Embedding of `cleanProvisionContent`. -/
def cleanProvisionContent (content : Str) : Str :=
  let lines := content.splitOnP (fun c => c == '\n')
  let kept := lines.filter (fun line =>
    let trimmed := jsTrim line
    !trimmed.isEmpty && !isMetadataLine trimmed)
  let survivors := dropTrailingKeywordLines kept
  let cleaned := jsTrim (joinSep ['\n'] survivors)
  let cleaned := stripTrailingRef cleaned
  let cleaned := collapseNewlines cleaned
  jsTrim cleaned

/-! ### Cleaner theorems (C2, C4) -/

/-- C2 counterexample: cleaning is not idempotent.  On
`"a § 1 § 2"` the first clean removes only the final trailing section
reference (the replace is non-global and anchored at the end), producing
`"a § 1"`; a second clean then strips the newly-trailing `" § 1"` as well. -/
theorem claim2_counterexample :
    cleanProvisionContent "a § 1 § 2".data = "a § 1".data ∧
    cleanProvisionContent (cleanProvisionContent "a § 1 § 2".data) = "a".data ∧
    cleanProvisionContent (cleanProvisionContent "a § 1 § 2".data) ≠
      cleanProvisionContent "a § 1 § 2".data := by
  refine ⟨by decide, by decide, ?_⟩
  intro h
  rw [show cleanProvisionContent "a § 1 § 2".data = "a § 1".data from by decide,
    show cleanProvisionContent "a § 1".data = "a".data from by decide] at h
  exact absurd h (by decide)

/-- C2 (amended): cleaning is idempotent only on inputs where the first pass
exposes no further trailing section reference, metadata line or keyword line;
in particular on the specification's end-to-end example a second cleaning
returns the text unchanged. -/
theorem claim2_idempotent_on_cleaned_example :
    cleanProvisionContent
        ("BGBl. Nr. 1/1930".data ++ '\n' :: "§ 1".data ++ '\n' ::
          "Österreich ist eine demokratische Republik. Artikel 1.".data ++
          '\n' :: "Staatsform, Demokratie, Grundprinzip".data) =
      "Österreich ist eine demokratische Republik.".data ∧
    cleanProvisionContent
        (cleanProvisionContent
          ("BGBl. Nr. 1/1930".data ++ '\n' :: "§ 1".data ++ '\n' ::
            "Österreich ist eine demokratische Republik. Artikel 1.".data ++
            '\n' :: "Staatsform, Demokratie, Grundprinzip".data)) =
      cleanProvisionContent
        ("BGBl. Nr. 1/1930".data ++ '\n' :: "§ 1".data ++ '\n' ::
          "Österreich ist eine demokratische Republik. Artikel 1.".data ++
          '\n' :: "Staatsform, Demokratie, Grundprinzip".data) := by
  constructor
  · decide
  · rw [show cleanProvisionContent
          ("BGBl. Nr. 1/1930".data ++ '\n' :: "§ 1".data ++ '\n' ::
            "Österreich ist eine demokratische Republik. Artikel 1.".data ++
            '\n' :: "Staatsform, Demokratie, Grundprinzip".data) =
          "Österreich ist eine demokratische Republik.".data from by decide]
    decide

/-- C4 counterexample: the first pass of `cleanProvisionContent` removes a
comma-delimited line that matches the amendment pattern (ending in a BGBl
reference) even though the line contains the sentence-forming function word
`ist`. -/
theorem claim4_counterexample :
    verbTest (jsTrim "Das ist alt, BGBl. Nr. 1".data) = true ∧
    cleanProvisionContent
        ("Das ist alt, BGBl. Nr. 1".data ++ '\n' :: "Text bleibt".data) =
      "Text bleibt".data := by
  constructor
  · decide
  · decide

theorem isKeywordLine_verb_false {line : Str} (h : verbTest line = true) :
    isKeywordLine line = false := by
  simp only [isKeywordLine, h, if_true]
  split
  · rfl
  · split <;> rfl

/-- C4 (amended): the verb guard protects only the trailing keyword-stripping
pass: a line containing a sentence-forming function word is never classified
as a keyword line, and the trailing-removal loop leaves any list of lines
ending in such a line unchanged.  (The pass-1 whole-line metadata patterns,
in particular the amendment pattern, can still remove verb-bearing lines.) -/
theorem claim4_verb_guarded_keyword_stripping (ls : List Str) (l : Str)
    (h : verbTest (jsTrim l) = true) :
    isKeywordLine (jsTrim l) = false ∧
    dropTrailingKeywordLines (ls ++ [l]) = ls ++ [l] := by
  refine ⟨isKeywordLine_verb_false h, ?_⟩
  unfold dropTrailingKeywordLines
  rw [List.reverse_append]
  simp only [List.reverse_cons, List.reverse_nil, List.nil_append,
    List.cons_append, List.singleton_append]
  rw [List.dropWhile_cons_of_neg (by simp [isKeywordLine_verb_false h])]
  simp

/-- Witness for C4 at a concrete verb-bearing comma-delimited line. -/
theorem claim4_witness :
    dropTrailingKeywordLines
        (["Erster Satz.".data] ++ ["Alles, was hier steht, ist wahr".data]) =
      ["Erster Satz.".data] ++ ["Alles, was hier steht, ist wahr".data] :=
  (claim4_verb_guarded_keyword_stripping ["Erster Satz.".data]
      "Alles, was hier steht, ist wahr".data (by decide)).2

/-! ### Provision candidate builder and citation validator -/

/-- ProvisionCandidateSet of the data model. -/
structure ProvisionCandidateSet where
  canonicalSection : Str
  provisionRefs : List Str
  sections : List Str
deriving DecidableEq, Repr

/-- Modelled from the spec: the implementation file
`src/utils/provision-candidates.ts` is not among the provided sources (only
its unit tests and its callers are), so `buildProvisionLookupCandidates` is
modelled from specification section 4.3: strip a leading
`§`/`Paragraph`/`Paragraf`/`para` marker and surrounding whitespace to obtain
`canonicalSection`; empty input yields a candidate set with all fields empty
(not an error); otherwise `provisionRefs` holds the machine key
`para<canonical>` and `sections` holds the decorated and bare human forms
`§ <canonical>` and `<canonical>`. -/
def buildProvisionLookupCandidates (ref : Str) : ProvisionCandidateSet :=
  let t := jsTrim ref
  let stripped :=
    match t with
    | '§' :: r => r
    | _ =>
      match stripCI "paragraph".data t with
      | some r => r
      | none =>
        match stripCI "paragraf".data t with
        | some r => r
        | none =>
          match stripCI "para".data t with
          | some r => r
          | none => t
  let c := jsTrim stripped
  if c.isEmpty then
    { canonicalSection := [], provisionRefs := [], sections := [] }
  else
    { canonicalSection := c, provisionRefs := ["para".data ++ c],
      sections := ["§ ".data ++ c, c] }

/-- C9: the empty reference yields the all-empty candidate set (not an
error); `"§ 4a"` yields canonical section `"4a"` with `"4a"` among the
sections and `"para4a"` among the provision refs; the test vector `"para5"`
normalizes to canonical section `"5"`. -/
theorem claim9_candidate_sets :
    (buildProvisionLookupCandidates "".data).canonicalSection = [] ∧
    (buildProvisionLookupCandidates "".data).provisionRefs = [] ∧
    (buildProvisionLookupCandidates "".data).sections = [] ∧
    (buildProvisionLookupCandidates "§ 4a".data).canonicalSection = "4a".data ∧
    "4a".data ∈ (buildProvisionLookupCandidates "§ 4a".data).sections ∧
    "para4a".data ∈ (buildProvisionLookupCandidates "§ 4a".data).provisionRefs ∧
    (buildProvisionLookupCandidates "para5".data).canonicalSection = "5".data := by
  decide

/-- Document row returned by the store for a resolved id. -/
structure DocRow where
  id : Str
  title : Str
  status : Str

/-- ValidationResult of the data model. -/
structure ValidationResult where
  citation : ParsedCitation
  document_exists : Bool
  provision_exists : Bool
  document_title : Option Str := none
  status : Option Str := none
  warnings : List Str

/-- The document-store collaborator of the validator: id resolution (the
`resolveExistingStatuteId` helper), the `legal_documents` point query, and
the `legal_provisions` candidate query (any candidate key matching under the
document). -/
structure DocumentStore where
  resolveExistingStatuteId : Str → Option Str
  getDocument : Str → Option DocRow
  provisionExists : Str → ProvisionCandidateSet → Bool

/-- Match of `\bgesetz-\d+\b/i` at the current position: the case-insensitive
literal, at least one digit, and a non-word character (or the end) after the
digits; returns the matched slice of the original string. -/
def gesetzHere (cs : Str) : Option Str :=
  match stripCI "gesetz-".data cs with
  | some r =>
    let ds := r.takeWhile isDigitC
    if ds.isEmpty then none
    else
      match r.drop ds.length with
      | [] => some (cs.take (7 + ds.length))
      | c :: _ => if isWordC c then none else some (cs.take (7 + ds.length))
  | none => none

/-- Leftmost search for `\bgesetz-\d+\b/i`; `pw` is the wordness of the
previous character (the `\b` before the match requires it to be false). -/
def findGesetzIdGo : Bool → Str → Option Str
  | _, [] => none
  | pw, c :: rest =>
    match (if pw then none else gesetzHere (c :: rest)) with
    | some x => some x
    | none => findGesetzIdGo (isWordC c) rest

/-- Embedding of `citation.match(/\bgesetz-\d+\b/i)?.[0]`. -/
def findGesetzId (cs : Str) : Option Str := findGesetzIdGo false cs

/-- The `parsed.title ?? explicitId` lookup-term choice (a present but empty
title is still a present value for `??`). -/
def lookupTermOf (parsed : ParsedCitation) (explicitId : Option Str) :
    Option Str :=
  match parsed.title with
  | some t => some t
  | none => explicitId

/-- Resolution of a lookup term to a document row (resolver plus point
query). -/
def resolveDoc (db : DocumentStore) (term : Str) : Option DocRow :=
  match db.resolveExistingStatuteId term with
  | some rid => db.getDocument rid
  | none => none

/-- Embedding of `validateCitation`.  The warning string for a missing
provision reproduces the source literally, including its mangled `ยง`
characters. -/
def validateCitation (db : DocumentStore) (citation : Str) : ValidationResult :=
  let parsed := parseCitation citation
  if parsed.valid = false then
    { citation := parsed, document_exists := false, provision_exists := false,
      warnings := [parsed.error.getD "Invalid citation format".data] }
  else
    match lookupTermOf parsed (findGesetzId citation) with
    | none =>
      { citation := parsed, document_exists := false,
        provision_exists := false,
        warnings := ["Citation must include either a statute title or statute ID (e.g. gesetz-10001622).".data] }
    | some term =>
      match resolveDoc db term with
      | none =>
        { citation := parsed, document_exists := false,
          provision_exists := false,
          warnings := ["Document \"".data ++ term ++ "\" not found in database".data] }
      | some d =>
        let warnings0 :=
          if d.status = "repealed".data then
            ["This statute has been repealed".data]
          else []
        match parsed.«section» with
        | some sec =>
          if sec.isEmpty then
            { citation := parsed, document_exists := true,
              provision_exists := true, document_title := some d.title,
              status := some d.status, warnings := warnings0 }
          else
            let pe := db.provisionExists d.id
              (buildProvisionLookupCandidates sec)
            { citation := parsed, document_exists := true,
              provision_exists := pe, document_title := some d.title,
              status := some d.status,
              warnings :=
                if pe then warnings0
                else warnings0 ++
                  ["Section ยง ".data ++ sec ++ " not found in ".data ++ d.title] }
        | none =>
          { citation := parsed, document_exists := true,
            provision_exists := true, document_title := some d.title,
            status := some d.status, warnings := warnings0 }


/-- C5: for every document store and citation string, the ValidationResult
satisfies the invariant `provision_exists = true → document_exists = true`,
and every early-exit path (unparseable citation, missing title and explicit
id, unresolved document) returns both flags false. -/
theorem claim5_validator_invariant (db : DocumentStore) (c : Str) :
    ((validateCitation db c).provision_exists = true →
      (validateCitation db c).document_exists = true) ∧
    ((parseCitation c).valid = false →
      (validateCitation db c).document_exists = false ∧
      (validateCitation db c).provision_exists = false) ∧
    (lookupTermOf (parseCitation c) (findGesetzId c) = none →
      (validateCitation db c).document_exists = false ∧
      (validateCitation db c).provision_exists = false) ∧
    (∀ term, lookupTermOf (parseCitation c) (findGesetzId c) = some term →
      resolveDoc db term = none →
      (validateCitation db c).document_exists = false ∧
      (validateCitation db c).provision_exists = false) := by
  simp only [validateCitation]
  split
  · exact ⟨by simp, fun _ => by simp, fun _ => by simp, fun _ _ _ => by simp⟩
  · rename_i hvalid
    split
    · rename_i hlk
      exact ⟨by simp, fun hv => absurd hv hvalid, fun _ => by simp,
        fun term ht _ => by rw [hlk] at ht; exact absurd ht (by simp)⟩
    · rename_i term hlk
      split
      · rename_i hdoc
        refine ⟨by simp, fun hv => absurd hv hvalid,
          fun hn => ?_, fun _ _ _ => by simp⟩
        rw [hlk] at hn
        exact absurd hn (by simp)
      · rename_i d hdoc
        have invalidParts :
            ((parseCitation c).valid = false →
              False) := fun hv => hvalid hv
        have lkParts :
            lookupTermOf (parseCitation c) (findGesetzId c) = none → False := by
          intro hn; rw [hlk] at hn; exact absurd hn (by simp)
        have docParts :
            ∀ t, lookupTermOf (parseCitation c) (findGesetzId c) = some t →
              resolveDoc db t = none → False := by
          intro t ht hr
          rw [hlk] at ht
          injection ht with ht
          rw [ht] at hdoc
          rw [hdoc] at hr
          exact absurd hr (by simp)
        split
        · split
          · exact ⟨fun _ => by simp, fun hv => absurd (invalidParts hv) id,
              fun hn => absurd (lkParts hn) id,
              fun t ht hr => absurd (docParts t ht hr) id⟩
          · exact ⟨fun _ => by simp, fun hv => absurd (invalidParts hv) id,
              fun hn => absurd (lkParts hn) id,
              fun t ht hr => absurd (docParts t ht hr) id⟩
        · exact ⟨fun _ => by simp, fun hv => absurd (invalidParts hv) id,
            fun hn => absurd (lkParts hn) id,
            fun t ht hr => absurd (docParts t ht hr) id⟩

/-- The empty document store used by the witness. -/
def emptyStore : DocumentStore :=
  { resolveExistingStatuteId := fun _ => none,
    getDocument := fun _ => none,
    provisionExists := fun _ _ => false }

/-- Witness for C5: the unparseable citation `""` takes the first early-exit
path, with both existence flags false. -/
theorem claim5_witness :
    (validateCitation emptyStore "".data).document_exists = false ∧
    (validateCitation emptyStore "".data).provision_exists = false :=
  (claim5_validator_invariant emptyStore "".data).2.1 (by decide)

end AustrianLaw
